import Mathlib

/-!
Verification development for the history router of the BackMysqlAWS service
(src/src/routes/histRouter.js).

The router is embedded shallowly:

* request bodies are JavaScript values (`JSVal`) with the JavaScript
  falsiness rule used by the `!field` validation checks;
* the MySQL record store is a `DB` structure holding the two tables
  (`histPoints`, `histTransactions`); each store operation can fail with a
  driver error message (modelled by the `fail*` fields), reproducing the
  thrown-error paths of the `try/catch` blocks;
* DATETIME values are `DateTime` records; the textual datetime formats of
  the router (the sv-SE wall-clock format, the MySQL literal format and the
  pt-BR display format) are rendered and parsed character by character, so
  that every string transformation of the source is executable and provable;
* the two GET routes are pure functions from a `DB`, a scope and the query
  parameters to an HTTP result.

Times are compared through `DateTime.key`, a lexicographic packing of the
six calendar fields that is strictly monotone in calendar order for
in-range fields, hence order-isomorphic to the epoch-milliseconds value the
JavaScript runtime and MySQL compare (all datetimes here live in the single
fixed timezone the service uses).
-/

set_option maxHeartbeats 1000000

/-- One decimal digit rendered as a character (used by the zero-padded
numeric fields of every datetime format in the router). -/
def digitChar (n : Nat) : Char :=
  match n with
  | 0 => '0'
  | 1 => '1'
  | 2 => '2'
  | 3 => '3'
  | 4 => '4'
  | 5 => '5'
  | 6 => '6'
  | 7 => '7'
  | 8 => '8'
  | _ => '9'

/-- Character-level test for a decimal digit. -/
def isDigitC (c : Char) : Bool :=
  '0' ≤ c && c ≤ '9'

/-- Numeric value of a digit character. -/
def charValC (c : Char) : Nat :=
  c.toNat - 48

/-- Accumulator loop reading a decimal number from characters; fails on any
non-digit character. -/
def digitsValGo : List Char → Nat → Option Nat
  | [], acc => some acc
  | c :: cs, acc =>
    if isDigitC c then digitsValGo cs (acc * 10 + charValC c) else none

/-- Decimal value of a non-empty all-digit character list (the behaviour of
numeric field parsing in MySQL datetime literals and in the JavaScript date
parser, restricted to the shapes that occur in this router). -/
def digitsVal (l : List Char) : Option Nat :=
  match l with
  | [] => none
  | _ => digitsValGo l 0

/-- Split a character list on a single-character separator; the
character-level counterpart of splitting a string on a one-character
delimiter. -/
def splitOnC (sep : Char) : List Char → List (List Char)
  | [] => [[]]
  | c :: cs =>
    if c = sep then
      [] :: splitOnC sep cs
    else
      match splitOnC sep cs with
      | [] => [[c]]
      | g :: gs => (c :: g) :: gs

/-- Replace the first occurrence of a character, as the JavaScript
`replace` method does with a one-character string pattern (it rewrites only
the first match). -/
def replaceFirst (a b : Char) : List Char → List Char
  | [] => []
  | c :: cs => if c = a then b :: cs else c :: replaceFirst a b cs

/-- Two-digit zero-padded rendering of a numeric field. -/
def pad2C (n : Nat) : List Char :=
  [digitChar (n / 10), digitChar (n % 10)]

/-- Four-digit zero-padded rendering of a year field. -/
def pad4C (n : Nat) : List Char :=
  [digitChar (n / 1000), digitChar (n / 100 % 10), digitChar (n / 10 % 10), digitChar (n % 10)]

/-- A wall-clock datetime broken into calendar fields, the embedding of a
MySQL DATETIME value and of a JavaScript `Date` pinned to the single
timezone the service works in. -/
structure DateTime where
  year : Nat
  month : Nat
  day : Nat
  hour : Nat
  minute : Nat
  second : Nat
deriving DecidableEq, Repr

/-- Lexicographic packing of the calendar fields; for in-range fields it is
strictly monotone in calendar order, hence order-isomorphic to the epoch
value that MySQL comparisons and JavaScript `Date` arithmetic use. -/
def DateTime.key (d : DateTime) : Nat :=
  d.year * 10000000000 + d.month * 100000000 + d.day * 1000000 +
    d.hour * 10000 + d.minute * 100 + d.second

/-- Field ranges of a well-formed DATETIME value. -/
def DateTime.valid (d : DateTime) : Bool :=
  d.year ≤ 9999 && 1 ≤ d.month && d.month ≤ 12 && 1 ≤ d.day && d.day ≤ 31 &&
    d.hour ≤ 23 && d.minute ≤ 59 && d.second ≤ 59

/-- Characters of the sv-SE locale rendering of a datetime,
`YYYY-MM-DD HH:MM:SS`, produced inside `getBrazilDateTime`. -/
def svSEChars (d : DateTime) : List Char :=
  pad4C d.year ++ '-' :: pad2C d.month ++ '-' :: pad2C d.day ++
    ' ' :: pad2C d.hour ++ ':' :: pad2C d.minute ++ ':' :: pad2C d.second

/-- Embedding of `getBrazilDateTime` (histRouter.js lines 9 to 14): render
the current wall clock of the America/Sao_Paulo timezone in the sv-SE
format and replace the first space with a `T`, giving
`YYYY-MM-DDTHH:MM:SS`.  The current wall clock, already converted to that
timezone by the runtime, is the `now` argument. -/
def getBrazilDateTime (now : DateTime) : String :=
  ⟨replaceFirst ' ' 'T' (svSEChars now)⟩

/-- Characters of the pt-BR locale rendering used for display,
`DD/MM/YYYY, HH:MM:SS`, produced by `formatDateToBrazil`. -/
def ptBRChars (d : DateTime) : List Char :=
  pad2C d.day ++ '/' :: pad2C d.month ++ '/' :: pad4C d.year ++
    ',' :: ' ' :: pad2C d.hour ++ ':' :: pad2C d.minute ++ ':' :: pad2C d.second

/-- Embedding of the local `formatDateToBrazil` helpers (histRouter.js
lines 217 to 219 and 318 to 320): the stored datetime rendered in the
pt-BR day/month/year, 24-hour format.  The driver materialises the stored
DATETIME in the server timezone and the locale rendering reads the same
fields back, so the display fields equal the stored fields. -/
def formatDateToBrazil (d : DateTime) : String :=
  ⟨ptBRChars d⟩

/-- Character-level parser for MySQL datetime literals
`YYYY-MM-DD HH:MM:SS`, also accepting `T` as the date/time delimiter as
MySQL does; out-of-range fields are rejected.  (MySQL additionally checks
day-of-month against the month length; no datetime reaching this parser in
the router distinguishes the two rules.) -/
def mysqlParseChars (l : List Char) : Option DateTime :=
  match splitOnC ' ' (l.map fun c => if c = 'T' then ' ' else c) with
  | [dpart, tpart] =>
    match splitOnC '-' dpart, splitOnC ':' tpart with
    | [yS, moS, dS], [hS, miS, sS] =>
      match digitsVal yS, digitsVal moS, digitsVal dS,
            digitsVal hS, digitsVal miS, digitsVal sS with
      | some y, some mo, some d, some h, some mi, some s =>
        if y ≤ 9999 && 1 ≤ mo && mo ≤ 12 && 1 ≤ d && d ≤ 31 &&
             h ≤ 23 && mi ≤ 59 && s ≤ 59 then
          some ⟨y, mo, d, h, mi, s⟩
        else none
      | _, _, _, _, _, _ => none
    | _, _ => none
  | _ => none

/-- MySQL-side interpretation of a datetime string bound into a query. -/
def mysqlParseDateTime (s : String) : Option DateTime :=
  mysqlParseChars s.data

/-- Character-level model of the JavaScript runtime re-parsing a pt-BR
display string through the `Date` constructor: the legacy parser reads the
slash-separated date month-first (`MM/DD/YYYY`), so a display string whose
day-of-month field exceeds 12 does not parse (an Invalid Date, value NaN).
The result is the comparison key of the datetime the runtime obtains. -/
def jsParseChars (l : List Char) : Option Nat :=
  match splitOnC ',' l with
  | [dpart, tpart] =>
    match splitOnC '/' dpart, splitOnC ':' (tpart.dropWhile fun c => c = ' ') with
    | [moS, dS, yS], [hS, miS, sS] =>
      match digitsVal moS, digitsVal dS, digitsVal yS,
            digitsVal hS, digitsVal miS, digitsVal sS with
      | some mo, some d, some y, some h, some mi, some s =>
        if 1 ≤ mo && mo ≤ 12 && 1 ≤ d && d ≤ 31 &&
             h ≤ 23 && mi ≤ 59 && s ≤ 59 then
          some (DateTime.key ⟨y, mo, d, h, mi, s⟩)
        else none
      | _, _, _, _, _, _ => none
    | _, _ => none
  | _ => none

/-- Timestamp obtained by the sort comparator when it re-parses a display
string (`new Date(entry.date)`), `none` standing for an Invalid Date. -/
def jsParseDate (s : String) : Option Nat :=
  jsParseChars s.data

/-- A JavaScript value as it appears in a JSON request body; the numeric
case is kept integral (no claim depends on fractional values). -/
inductive JSVal where
  | undefined
  | null
  | boolean (b : Bool)
  | num (n : Int)
  | str (s : String)
deriving DecidableEq, Repr

/-- JavaScript falsiness, the rule applied by the `!field` validation
checks: `undefined`, `null`, `false`, `0` and the empty string are falsy. -/
def JSVal.falsy : JSVal → Bool
  | .undefined => true
  | .null => true
  | .boolean b => !b
  | .num n => n == 0
  | .str s => s == ""

/-- MySQL cast of a bound parameter into a character column (only truthy
values ever reach it in the router). -/
def jsAsString : JSVal → String
  | .str s => s
  | .num n => toString n
  | .boolean b => if b then "1" else "0"
  | .null => ""
  | .undefined => ""

/-- MySQL cast of a bound parameter into a numeric column (only truthy
values ever reach it in the router). -/
def jsAsInt : JSVal → Int
  | .num n => n
  | .str s => (s.toInt?).getD 0
  | .boolean b => if b then 1 else 0
  | _ => 0

/-- Body of a POST /hist/pontos request.  The handler destructures only
`id`, `idUser` and `points`; the `date` field stands for any
caller-supplied timestamp, which the handler never reads. -/
structure PontosBody where
  id : JSVal
  idUser : JSVal
  points : JSVal
  date : JSVal
deriving DecidableEq, Repr

/-- Body of a POST /hist/transacoes request; `date` again stands for a
caller-supplied timestamp ignored by the handler. -/
structure TransacoesBody where
  idUser : JSVal
  description : JSVal
  points : JSVal
  date : JSVal
deriving DecidableEq, Repr

/-- A row of the histPoints table. -/
structure PointRow where
  id : String
  idUser : String
  points : Int
  date : DateTime
deriving DecidableEq, Repr

/-- A row of the histTransactions table; `id` is assigned by the store. -/
structure TransRow where
  id : Nat
  idUser : String
  description : String
  points : Int
  date : DateTime
deriving DecidableEq, Repr

/-- The record store.  The `fail*` fields model a store operation throwing
(connectivity, constraint violation, ...) with the given driver message,
which is what the `catch` blocks of the router observe. -/
structure DB where
  histPoints : List PointRow
  histTransactions : List TransRow
  nextTransId : Nat
  failInsertPoints : Option String
  failInsertTransactions : Option String
  failQueryPoints : Option String
  failQueryTransactions : Option String
deriving DecidableEq, Repr

/-- An HTTP response: either a success payload or an error body
`{error, details}` with a status code. -/
inductive HttpResult (α : Type) where
  | ok (status : Nat) (payload : α)
  | err (status : Nat) (error : String) (details : String)
deriving DecidableEq, Repr

/-- Embedding of POST /hist/pontos (histRouter.js lines 41 to 78):
falsy-field validation, wall-clock timestamp generation, then the
parametrised INSERT (the store parses the bound datetime literal). -/
def postHistPontos (now : DateTime) (body : PontosBody) (db : DB) :
    HttpResult String × DB :=
  if body.id.falsy || body.idUser.falsy || body.points.falsy then
    (.err 400 "Campos obrigatórios ausentes." "", db)
  else
    let brazilDate := getBrazilDateTime now
    match db.failInsertPoints with
    | some m => (.err 500 "Erro ao registrar histórico de pontos." m, db)
    | none =>
      match mysqlParseDateTime brazilDate with
      | some d =>
        (.ok 201 "Histórico de pontos registrado com sucesso.",
         { db with histPoints := db.histPoints ++
             [⟨jsAsString body.id, jsAsString body.idUser, jsAsInt body.points, d⟩] })
      | none =>
        (.err 500 "Erro ao registrar histórico de pontos." "Incorrect datetime value", db)

/-- Embedding of POST /hist/transacoes (histRouter.js lines 104 to 141);
the row id is assigned by the store from its auto-increment counter. -/
def postHistTransacoes (now : DateTime) (body : TransacoesBody) (db : DB) :
    HttpResult String × DB :=
  if body.idUser.falsy || body.description.falsy || body.points.falsy then
    (.err 400 "Campos obrigatórios ausentes." "", db)
  else
    let brazilDate := getBrazilDateTime now
    match db.failInsertTransactions with
    | some m => (.err 500 "Erro ao registrar transação." m, db)
    | none =>
      match mysqlParseDateTime brazilDate with
      | some d =>
        (.ok 201 "Histórico de transação registrado com sucesso.",
         { db with
             histTransactions := db.histTransactions ++
               [⟨db.nextTransId, jsAsString body.idUser, jsAsString body.description,
                 jsAsInt body.points, d⟩],
             nextTransId := db.nextTransId + 1 })
      | none =>
        (.err 500 "Erro ao registrar transação." "Incorrect datetime value", db)

/-- Id column of a merged history entry: a caller-supplied string for a
point row, a store-generated number for a transaction row. -/
inductive EntryId where
  | s (v : String)
  | n (v : Nat)
deriving DecidableEq, Repr

/-- A row as returned by the two SELECT projections, before the display
rewrite: all selected columns plus the constant `tipo` tag; `description`
is absent (`none`) for point rows, which do not select it. -/
structure RawEntry where
  id : EntryId
  idUser : String
  points : Int
  description : Option String
  date : DateTime
  tipo : String
deriving DecidableEq, Repr

/-- A history entry after the display rewrite: identical to the raw entry
except that `date` now holds the pt-BR display string. -/
structure DispEntry where
  id : EntryId
  idUser : String
  points : Int
  description : Option String
  date : String
  tipo : String
deriving DecidableEq, Repr

/-- Projection of the points SELECT: id, idUser, points, date and the
constant tag `ponto`; no description column is selected. -/
def projPoint (r : PointRow) : RawEntry :=
  ⟨.s r.id, r.idUser, r.points, none, r.date, "ponto"⟩

/-- Projection of the transactions SELECT: id, idUser, description,
points, date and the constant tag `transacao`. -/
def projTrans (r : TransRow) : RawEntry :=
  ⟨.n r.id, r.idUser, r.points, some r.description, r.date, "transacao"⟩

/-- The `.map` step of both GET routes: spread the row and overwrite only
`date` with its pt-BR display string. -/
def normalizeEntry (r : RawEntry) : DispEntry :=
  ⟨r.id, r.idUser, r.points, r.description, formatDateToBrazil r.date, r.tipo⟩

/-- MySQL evaluation of `date BETWEEN ? AND ?`: inclusive on both ends; a
bound that is not a valid datetime literal compares as NULL, so no row
matches. -/
def betweenWindow (d : DateTime) (ws we : Option DateTime) : Bool :=
  match ws, we with
  | some a, some b => a.key ≤ d.key && d.key ≤ b.key
  | _, _ => false

/-- Resolution of the `start` query parameter (histRouter.js lines 202 and
303): extend a present date to the start of its day, default to the epoch
floor. -/
def startDateTimeOf : Option String → String
  | some s => s ++ " 00:00:00"
  | none => "1970-01-01 00:00:00"

/-- Resolution of the `end` query parameter (histRouter.js lines 203 and
304): extend a present date to the end of its day, default to the
far-future ceiling. -/
def endDateTimeOf : Option String → String
  | some e => e ++ " 23:59:59"
  | none => "2999-12-31 23:59:59"

/-- Row set of the single-user points SELECT (histRouter.js lines 205 to
209), as raw entries. -/
def pointsRawUser (db : DB) (uid : String) (ws we : Option DateTime) : List RawEntry :=
  (db.histPoints.filter fun r => r.idUser == uid && betweenWindow r.date ws we).map projPoint

/-- Row set of the single-user transactions SELECT (histRouter.js lines
211 to 215), as raw entries. -/
def transRawUser (db : DB) (uid : String) (ws we : Option DateTime) : List RawEntry :=
  (db.histTransactions.filter fun r => r.idUser == uid && betweenWindow r.date ws we).map projTrans

/-- Row set of the all-users points SELECT (histRouter.js lines 306 to
310), as raw entries. -/
def pointsRawAll (db : DB) (ws we : Option DateTime) : List RawEntry :=
  (db.histPoints.filter fun r => betweenWindow r.date ws we).map projPoint

/-- Row set of the all-users transactions SELECT (histRouter.js lines 312
to 316), as raw entries. -/
def transRawAll (db : DB) (ws we : Option DateTime) : List RawEntry :=
  (db.histTransactions.filter fun r => betweenWindow r.date ws we).map projTrans

/-- The sort comparator (histRouter.js lines 226 and 327):
`new Date(b.date) - new Date(a.date)` on the display strings; when either
side is an Invalid Date the subtraction is NaN, which the sort machinery
coerces to zero. -/
def compareEntries (a b : DispEntry) : Int :=
  match jsParseDate b.date, jsParseDate a.date with
  | some kb, some ka => (kb : Int) - (ka : Int)
  | _, _ => 0

/-- The comparator as a binary relation: a sorts no later than b. -/
def entryLe (a b : DispEntry) : Bool :=
  compareEntries a b ≤ 0

/-- Stable insertion of an element into a sorted list, placing it before
the first element it need not follow. -/
def orderedInsertJS {α : Type} (le : α → α → Bool) (x : α) : List α → List α
  | [] => [x]
  | y :: ys => if le x y then x :: y :: ys else y :: orderedInsertJS le x ys

/-- Stable sort modelling `Array.prototype.sort`: the runtime sort is
stable, and on a list whose comparisons are consistent every stable sort
produces the same output; on the all-NaN comparisons relevant below every
comparison is zero and every stable sort returns the input order. -/
def sortJS {α : Type} (le : α → α → Bool) (l : List α) : List α :=
  l.foldr (orderedInsertJS le) []

/-- Merge, display-rewrite and sort of the two SELECT results
(histRouter.js lines 221 to 226 and 322 to 327). -/
def mergedSorted (pts txs : List RawEntry) : List DispEntry :=
  sortJS entryLe ((pts ++ txs).map normalizeEntry)

/-- The flat single-user history produced by GET /hist/:idUser when both
store queries succeed. -/
def histUserFlat (db : DB) (uid : String) (start? end? : Option String) : List DispEntry :=
  mergedSorted
    (pointsRawUser db uid (mysqlParseDateTime (startDateTimeOf start?))
      (mysqlParseDateTime (endDateTimeOf end?)))
    (transRawUser db uid (mysqlParseDateTime (startDateTimeOf start?))
      (mysqlParseDateTime (endDateTimeOf end?)))

/-- The flat all-users history computed by GET /hist before grouping, when
both store queries succeed. -/
def histAllFlat (db : DB) (start? end? : Option String) : List DispEntry :=
  mergedSorted
    (pointsRawAll db (mysqlParseDateTime (startDateTimeOf start?))
      (mysqlParseDateTime (endDateTimeOf end?)))
    (transRawAll db (mysqlParseDateTime (startDateTimeOf start?))
      (mysqlParseDateTime (endDateTimeOf end?)))

/-- One step of the grouping reduce (histRouter.js lines 330 to 334):
append the entry to the bucket of its user, creating the bucket at the end
of the object if absent (JavaScript object keys are unique, so the bucket
of a user occurs at most once). -/
def pushEntry : List (String × List DispEntry) → DispEntry → List (String × List DispEntry)
  | [], e => [(e.idUser, [e])]
  | p :: ps, e =>
    if p.1 == e.idUser then (p.1, p.2 ++ [e]) :: ps else p :: pushEntry ps e

/-- The grouping reduce over the sorted history, as an association list in
object-key insertion order. -/
def groupByUser (l : List DispEntry) : List (String × List DispEntry) :=
  l.foldl pushEntry []

/-- Reading a bucket out of the grouped object; an absent key reads as the
empty bucket. -/
def bucketOf (g : List (String × List DispEntry)) (u : String) : List DispEntry :=
  match g.find? fun p => p.1 == u with
  | some p => p.2
  | none => []

/-- Embedding of GET /hist/:idUser (histRouter.js lines 198 to 247): the
two store queries in order, each failure caught as a 500 response, then
the merged, rewritten and sorted flat history. -/
def getHistUser (db : DB) (uid : String) (start? end? : Option String) :
    HttpResult (List DispEntry) :=
  match db.failQueryPoints with
  | some m => .err 500 "Erro ao buscar histórico." m
  | none =>
    match db.failQueryTransactions with
    | some m => .err 500 "Erro ao buscar histórico." m
    | none => .ok 200 (histUserFlat db uid start? end?)

/-- Embedding of GET /hist (histRouter.js lines 300 to 355): like the
single-user route but unscoped, with the sorted history grouped by user
before responding. -/
def getHistAll (db : DB) (start? end? : Option String) :
    HttpResult (List (String × List DispEntry)) :=
  match db.failQueryPoints with
  | some m => .err 500 "Erro ao buscar histórico." m
  | none =>
    match db.failQueryTransactions with
    | some m => .err 500 "Erro ao buscar histórico." m
    | none => .ok 200 (groupByUser (histAllFlat db start? end?))

/-- Date half of the sv-SE rendering, `YYYY-MM-DD`. -/
def datePartC (d : DateTime) : List Char :=
  pad4C d.year ++ '-' :: (pad2C d.month ++ '-' :: pad2C d.day)

/-- Time half of the sv-SE rendering, `HH:MM:SS`. -/
def timePartC (d : DateTime) : List Char :=
  pad2C d.hour ++ ':' :: (pad2C d.minute ++ ':' :: pad2C d.second)

/-- JavaScript `>=` on the numeric values of two re-parsed display
strings: a comparison involving an Invalid Date (NaN) is false. -/
def jsGeOpt : Option Nat → Option Nat → Bool
  | some a, some b => b ≤ a
  | _, _ => false

/-- The ordering property the specification claims of every query result:
for each pair of returned entries, the earlier one is at least as recent
as the later one by re-parsed display timestamp. -/
def sortedByParsedDisplay (l : List DispEntry) : Prop :=
  l.Pairwise fun a b => jsGeOpt (jsParseDate a.date) (jsParseDate b.date) = true

theorem sortJS_cons {α : Type} (le : α → α → Bool) (x : α) (l : List α) :
    sortJS le (x :: l) = orderedInsertJS le x (sortJS le l) := rfl

theorem perm_orderedInsertJS {α : Type} (le : α → α → Bool) (x : α) (l : List α) :
    (orderedInsertJS le x l).Perm (x :: l) := by
  induction l with
  | nil => exact List.Perm.refl _
  | cons y ys ih =>
    by_cases h : le x y = true
    · simp [orderedInsertJS, h]
    · simp only [orderedInsertJS, if_neg h]
      exact (List.Perm.cons y ih).trans (List.Perm.swap x y ys)

theorem perm_sortJS {α : Type} (le : α → α → Bool) (l : List α) :
    (sortJS le l).Perm l := by
  induction l with
  | nil => exact List.Perm.refl _
  | cons x xs ih =>
    rw [sortJS_cons]
    exact (perm_orderedInsertJS le x (sortJS le xs)).trans (List.Perm.cons x ih)

theorem mem_sortJS {α : Type} {le : α → α → Bool} {a : α} {l : List α} :
    a ∈ sortJS le l ↔ a ∈ l :=
  (perm_sortJS le l).mem_iff

theorem mem_orderedInsertJS {α : Type} {le : α → α → Bool} {a x : α} {l : List α} :
    a ∈ orderedInsertJS le x l ↔ a = x ∨ a ∈ l := by
  rw [(perm_orderedInsertJS le x l).mem_iff, List.mem_cons]

theorem pairwise_orderedInsertJS {α : Type} {le : α → α → Bool} {P : α → Prop}
    (htrans : ∀ a b c, P a → P b → P c →
      le a b = true → le b c = true → le a c = true)
    (htotal : ∀ a b, P a → P b → le a b = true ∨ le b a = true)
    (x : α) (l : List α) (hx : P x) (hl : ∀ a ∈ l, P a)
    (hs : l.Pairwise fun a b => le a b = true) :
    (orderedInsertJS le x l).Pairwise fun a b => le a b = true := by
  induction l with
  | nil => simp [orderedInsertJS]
  | cons y ys ih =>
    rw [List.pairwise_cons] at hs
    by_cases h : le x y = true
    · simp only [orderedInsertJS, h, if_pos]
      refine List.Pairwise.cons ?_ (List.Pairwise.cons hs.1 hs.2)
      intro z hz
      rcases List.mem_cons.mp hz with hzy | hzys
      · exact hzy ▸ h
      · exact htrans x y z hx (hl y (by simp)) (hl z (by simp [hzys])) h (hs.1 z hzys)
    · simp only [orderedInsertJS, if_neg h]
      refine List.Pairwise.cons ?_ ?_
      · intro z hz
        rcases mem_orderedInsertJS.mp hz with hzx | hzys
        · subst hzx
          rcases htotal z y hx (hl y (by simp)) with h1 | h1
          · exact absurd h1 h
          · exact h1
        · exact hs.1 z hzys
      · exact ih (fun a ha => hl a (by simp [ha])) hs.2

theorem pairwise_sortJS {α : Type} {le : α → α → Bool} {P : α → Prop}
    (htrans : ∀ a b c, P a → P b → P c →
      le a b = true → le b c = true → le a c = true)
    (htotal : ∀ a b, P a → P b → le a b = true ∨ le b a = true)
    (l : List α) (hl : ∀ a ∈ l, P a) :
    (sortJS le l).Pairwise fun a b => le a b = true := by
  induction l with
  | nil => simp [sortJS]
  | cons x xs ih =>
    rw [sortJS_cons]
    refine pairwise_orderedInsertJS htrans htotal x (sortJS le xs)
      (hl x (by simp)) ?_ (ih fun a ha => hl a (by simp [ha]))
    intro a ha
    exact hl a (by simp [mem_sortJS.mp ha])

theorem bucketOf_nil (u : String) : bucketOf [] u = [] := rfl

theorem bucketOf_cons (q : String × List DispEntry)
    (qs : List (String × List DispEntry)) (u : String) :
    bucketOf (q :: qs) u = if q.1 == u then q.2 else bucketOf qs u := by
  by_cases h : (q.1 == u) = true
  · simp [bucketOf, List.find?, h]
  · simp only [Bool.not_eq_true] at h
    simp [bucketOf, List.find?, h]

theorem bucketOf_pushEntry (g : List (String × List DispEntry)) (e : DispEntry)
    (u : String) :
    bucketOf (pushEntry g e) u =
      if u = e.idUser then bucketOf g u ++ [e] else bucketOf g u := by
  induction g with
  | nil =>
    by_cases h : u = e.idUser
    · subst h
      simp [pushEntry, bucketOf_cons, bucketOf_nil]
    · have hb : (e.idUser == u) = false := beq_eq_false_iff_ne.mpr fun hh => h hh.symm
      simp [pushEntry, bucketOf_cons, bucketOf_nil, hb, h]
  | cons p ps ih =>
    by_cases hp : p.1 = e.idUser
    · have hpb : (p.1 == e.idUser) = true := beq_iff_eq.mpr hp
      by_cases hu : u = e.idUser
      · have hq : (p.1 == u) = true := beq_iff_eq.mpr (hp.trans hu.symm)
        simp [pushEntry, hpb, bucketOf_cons, hq, hu]
      · have hq : (p.1 == u) = false :=
          beq_eq_false_iff_ne.mpr fun hh => hu ((hh.symm.trans hp))
        simp [pushEntry, hpb, bucketOf_cons, hq, hu]
    · have hpb : (p.1 == e.idUser) = false := beq_eq_false_iff_ne.mpr hp
      by_cases hq : p.1 = u
      · have hqb : (p.1 == u) = true := beq_iff_eq.mpr hq
        have hue : u ≠ e.idUser := fun h => hp (hq.trans h)
        simp [pushEntry, hpb, bucketOf_cons, hqb, hue]
      · have hqb : (p.1 == u) = false := beq_eq_false_iff_ne.mpr hq
        simp [pushEntry, hpb, bucketOf_cons, hqb, ih]

theorem bucketOf_foldl_pushEntry (l : List DispEntry)
    (g : List (String × List DispEntry)) (u : String) :
    bucketOf (l.foldl pushEntry g) u =
      bucketOf g u ++ l.filter fun x => x.idUser == u := by
  induction l generalizing g with
  | nil => simp
  | cons e l ih =>
    rw [List.foldl_cons, ih, bucketOf_pushEntry]
    by_cases h : u = e.idUser
    · have hb : (e.idUser == u) = true := beq_iff_eq.mpr h.symm
      simp [List.filter_cons, h, hb]
    · have hb : (e.idUser == u) = false := beq_eq_false_iff_ne.mpr fun hh => h hh.symm
      simp [List.filter_cons, h, hb]

theorem bucketOf_groupByUser (l : List DispEntry) (u : String) :
    bucketOf (groupByUser l) u = l.filter fun x => x.idUser == u := by
  rw [groupByUser, bucketOf_foldl_pushEntry]
  simp [bucketOf]

theorem isDigitC_digitChar (n : Nat) : isDigitC (digitChar n) = true := by
  unfold digitChar
  split <;> decide

theorem charValC_digitChar (n : Nat) (h : n ≤ 9) : charValC (digitChar n) = n := by
  interval_cases n <;> decide

theorem digitsVal_pad2C (n : Nat) (h : n ≤ 99) : digitsVal (pad2C n) = some n := by
  have h1 : n / 10 ≤ 9 := by omega
  have h2 : n % 10 ≤ 9 := by omega
  simp [pad2C, digitsVal, digitsValGo, isDigitC_digitChar,
        charValC_digitChar _ h1, charValC_digitChar _ h2]
  omega

theorem digitsVal_pad4C (n : Nat) (h : n ≤ 9999) : digitsVal (pad4C n) = some n := by
  have h1 : n / 1000 ≤ 9 := by omega
  have h2 : n / 100 % 10 ≤ 9 := by omega
  have h3 : n / 10 % 10 ≤ 9 := by omega
  have h4 : n % 10 ≤ 9 := by omega
  simp [pad4C, digitsVal, digitsValGo, isDigitC_digitChar,
        charValC_digitChar _ h1, charValC_digitChar _ h2,
        charValC_digitChar _ h3, charValC_digitChar _ h4]
  omega

theorem isDigitC_of_mem_pad2C {c : Char} {n : Nat} (h : c ∈ pad2C n) :
    isDigitC c = true := by
  simp only [pad2C, List.mem_cons, List.not_mem_nil, or_false] at h
  rcases h with h | h <;> subst h <;> exact isDigitC_digitChar _

theorem isDigitC_of_mem_pad4C {c : Char} {n : Nat} (h : c ∈ pad4C n) :
    isDigitC c = true := by
  simp only [pad4C, List.mem_cons, List.not_mem_nil, or_false] at h
  rcases h with h | h | h | h <;> subst h <;> exact isDigitC_digitChar _

theorem mem_datePartC {c : Char} {d : DateTime} (h : c ∈ datePartC d) :
    isDigitC c = true ∨ c = '-' := by
  simp only [datePartC, List.mem_append, List.mem_cons] at h
  rcases h with h | h | h | h | h
  · exact Or.inl (isDigitC_of_mem_pad4C h)
  · exact Or.inr h
  · exact Or.inl (isDigitC_of_mem_pad2C h)
  · exact Or.inr h
  · exact Or.inl (isDigitC_of_mem_pad2C h)

theorem mem_timePartC {c : Char} {d : DateTime} (h : c ∈ timePartC d) :
    isDigitC c = true ∨ c = ':' := by
  simp only [timePartC, List.mem_append, List.mem_cons] at h
  rcases h with h | h | h | h | h
  · exact Or.inl (isDigitC_of_mem_pad2C h)
  · exact Or.inr h
  · exact Or.inl (isDigitC_of_mem_pad2C h)
  · exact Or.inr h
  · exact Or.inl (isDigitC_of_mem_pad2C h)

theorem svSEChars_eq (d : DateTime) :
    svSEChars d = datePartC d ++ ' ' :: timePartC d := by
  simp [svSEChars, datePartC, timePartC]

theorem splitOnC_of_not_mem {sep : Char} {l : List Char} (h : sep ∉ l) :
    splitOnC sep l = [l] := by
  induction l with
  | nil => rfl
  | cons c cs ih =>
    have hc : ¬c = sep := fun hh => h (by simp [hh])
    have hcs : sep ∉ cs := fun hh => h (by simp [hh])
    simp only [splitOnC, if_neg hc, ih hcs]

theorem splitOnC_append {sep : Char} {xs ys : List Char} (h : sep ∉ xs) :
    splitOnC sep (xs ++ sep :: ys) = xs :: splitOnC sep ys := by
  induction xs with
  | nil => simp [splitOnC]
  | cons c cs ih =>
    have hc : ¬c = sep := fun hh => h (by simp [hh])
    have hcs : sep ∉ cs := fun hh => h (by simp [hh])
    simp only [List.cons_append, splitOnC, if_neg hc, List.append_eq, ih hcs]

theorem replaceFirst_append {a b : Char} {xs ys : List Char} (h : a ∉ xs) :
    replaceFirst a b (xs ++ a :: ys) = xs ++ b :: ys := by
  induction xs with
  | nil => simp [replaceFirst]
  | cons c cs ih =>
    have hc : ¬c = a := fun hh => h (by simp [hh])
    have hcs : a ∉ cs := fun hh => h (by simp [hh])
    simp only [List.cons_append, replaceFirst, if_neg hc, List.append_eq, ih hcs]

theorem map_unT_of_not_mem {l : List Char} (h : 'T' ∉ l) :
    (l.map fun c => if c = 'T' then ' ' else c) = l := by
  induction l with
  | nil => rfl
  | cons c cs ih =>
    have hc : ¬c = 'T' := fun hh => h (by simp [hh])
    have hcs : 'T' ∉ cs := fun hh => h (by simp [hh])
    simp [if_neg hc, ih hcs]

theorem space_not_mem_datePartC (d : DateTime) : ' ' ∉ datePartC d := by
  intro h
  rcases mem_datePartC h with h | h <;> simp [isDigitC] at h

theorem space_not_mem_timePartC (d : DateTime) : ' ' ∉ timePartC d := by
  intro h
  rcases mem_timePartC h with h | h <;> simp [isDigitC] at h

theorem tchar_not_mem_datePartC (d : DateTime) : 'T' ∉ datePartC d := by
  intro h
  rcases mem_datePartC h with h | h <;> simp [isDigitC] at h

theorem tchar_not_mem_timePartC (d : DateTime) : 'T' ∉ timePartC d := by
  intro h
  rcases mem_timePartC h with h | h <;> simp [isDigitC] at h

theorem dash_not_mem_pad4C (n : Nat) : '-' ∉ pad4C n := by
  intro h
  have := isDigitC_of_mem_pad4C h
  simp [isDigitC] at this

theorem dash_not_mem_pad2C (n : Nat) : '-' ∉ pad2C n := by
  intro h
  have := isDigitC_of_mem_pad2C h
  simp [isDigitC] at this

theorem colon_not_mem_pad2C (n : Nat) : ':' ∉ pad2C n := by
  intro h
  have := isDigitC_of_mem_pad2C h
  simp [isDigitC] at this

theorem splitOnC_datePartC (d : DateTime) :
    splitOnC '-' (datePartC d) = [pad4C d.year, pad2C d.month, pad2C d.day] := by
  rw [datePartC, splitOnC_append (dash_not_mem_pad4C _),
      splitOnC_append (dash_not_mem_pad2C _), splitOnC_of_not_mem (dash_not_mem_pad2C _)]

theorem splitOnC_timePartC (d : DateTime) :
    splitOnC ':' (timePartC d) = [pad2C d.hour, pad2C d.minute, pad2C d.second] := by
  rw [timePartC, splitOnC_append (colon_not_mem_pad2C _),
      splitOnC_append (colon_not_mem_pad2C _), splitOnC_of_not_mem (colon_not_mem_pad2C _)]

theorem getBrazilDateTime_chars (d : DateTime) :
    (getBrazilDateTime d).data = datePartC d ++ 'T' :: timePartC d := by
  show replaceFirst ' ' 'T' (svSEChars d) = _
  rw [svSEChars_eq, replaceFirst_append (space_not_mem_datePartC d)]

theorem mysqlParse_getBrazil (d : DateTime) (h : d.valid = true) :
    mysqlParseDateTime (getBrazilDateTime d) = some d := by
  simp only [DateTime.valid, Bool.and_eq_true, decide_eq_true_eq] at h
  obtain ⟨⟨⟨⟨⟨⟨⟨hy, hm1⟩, hm2⟩, hd1⟩, hd2⟩, hh⟩, hmi⟩, hs⟩ := h
  rw [mysqlParseDateTime, getBrazilDateTime_chars, mysqlParseChars]
  rw [List.map_append, map_unT_of_not_mem (tchar_not_mem_datePartC d)]
  have hmap : (('T' :: timePartC d).map fun c => if c = 'T' then ' ' else c) =
      ' ' :: timePartC d := by
    simp [map_unT_of_not_mem (tchar_not_mem_timePartC d)]
  rw [hmap, splitOnC_append (space_not_mem_datePartC d),
      splitOnC_of_not_mem (space_not_mem_timePartC d)]
  simp only [splitOnC_datePartC, splitOnC_timePartC]
  rw [digitsVal_pad4C _ hy, digitsVal_pad2C _ (by omega), digitsVal_pad2C _ (by omega),
      digitsVal_pad2C _ (by omega), digitsVal_pad2C _ (by omega), digitsVal_pad2C _ (by omega)]
  show (if (decide (d.year ≤ 9999) && decide (1 ≤ d.month) && decide (d.month ≤ 12) &&
        decide (1 ≤ d.day) && decide (d.day ≤ 31) && decide (d.hour ≤ 23) &&
        decide (d.minute ≤ 59) && decide (d.second ≤ 59)) = true then
      some (DateTime.mk d.year d.month d.day d.hour d.minute d.second) else none) = some d
  rw [if_pos (by simp only [Bool.and_eq_true, decide_eq_true_eq]; omega)]

theorem getHistUser_ok (db : DB) (uid : String) (s? e? : Option String)
    (h1 : db.failQueryPoints = none) (h2 : db.failQueryTransactions = none) :
    getHistUser db uid s? e? = .ok 200 (histUserFlat db uid s? e?) := by
  simp [getHistUser, h1, h2]

theorem getHistAll_ok (db : DB) (s? e? : Option String)
    (h1 : db.failQueryPoints = none) (h2 : db.failQueryTransactions = none) :
    getHistAll db s? e? = .ok 200 (groupByUser (histAllFlat db s? e?)) := by
  simp [getHistAll, h1, h2]

theorem key_ge_epochFloor (d : DateTime) (hv : d.valid = true) (hy : 1970 ≤ d.year) :
    DateTime.key ⟨1970, 1, 1, 0, 0, 0⟩ ≤ d.key := by
  simp only [DateTime.valid, Bool.and_eq_true, decide_eq_true_eq] at hv
  obtain ⟨⟨⟨⟨⟨⟨⟨h1, h2⟩, h3⟩, h4⟩, h5⟩, h6⟩, h7⟩, h8⟩ := hv
  simp only [DateTime.key]
  omega

theorem key_le_farCeiling (d : DateTime) (hv : d.valid = true) (hy : d.year ≤ 2999) :
    d.key ≤ DateTime.key ⟨2999, 12, 31, 23, 59, 59⟩ := by
  simp only [DateTime.valid, Bool.and_eq_true, decide_eq_true_eq] at hv
  obtain ⟨⟨⟨⟨⟨⟨⟨h1, h2⟩, h3⟩, h4⟩, h5⟩, h6⟩, h7⟩, h8⟩ := hv
  simp only [DateTime.key]
  omega

theorem betweenWindow_default (d : DateTime) (hv : d.valid = true)
    (h1 : 1970 ≤ d.year) (h2 : d.year ≤ 2999) :
    betweenWindow d (mysqlParseDateTime (startDateTimeOf none))
      (mysqlParseDateTime (endDateTimeOf none)) = true := by
  have hws : mysqlParseDateTime (startDateTimeOf none) = some ⟨1970, 1, 1, 0, 0, 0⟩ := by
    decide
  have hwe : mysqlParseDateTime (endDateTimeOf none) = some ⟨2999, 12, 31, 23, 59, 59⟩ := by
    decide
  rw [hws, hwe]
  simp only [betweenWindow, Bool.and_eq_true, decide_eq_true_eq]
  exact ⟨key_ge_epochFloor d hv h1, key_le_farCeiling d hv h2⟩

/-- C4: a write request with any required field missing or falsy-equivalent
(empty string, zero, null, undefined, false) is answered with the
validation error response, status 400, and the store is left untouched:
no row is appended by either recorder. -/
theorem write_validation_rejects_falsy (now : DateTime) (pb : PontosBody)
    (tb : TransacoesBody) (db : DB)
    (hp : pb.id.falsy = true ∨ pb.idUser.falsy = true ∨ pb.points.falsy = true)
    (ht : tb.idUser.falsy = true ∨ tb.description.falsy = true ∨ tb.points.falsy = true) :
    postHistPontos now pb db = (.err 400 "Campos obrigatórios ausentes." "", db) ∧
    postHistTransacoes now tb db = (.err 400 "Campos obrigatórios ausentes." "", db) := by
  constructor
  · have hcond : (pb.id.falsy || pb.idUser.falsy || pb.points.falsy) = true := by
      rcases hp with h | h | h <;> simp [h]
    simp [postHistPontos, hcond]
  · have hcond : (tb.idUser.falsy || tb.description.falsy || tb.points.falsy) = true := by
      rcases ht with h | h | h <;> simp [h]
    simp [postHistTransacoes, hcond]

/-- Witness for C4: an absent id on the points route and an empty-string
description on the transactions route are both rejected with 400 and leave
the empty store unchanged. -/
theorem write_validation_rejects_falsy_witness :
    postHistPontos ⟨2024, 5, 1, 12, 0, 0⟩ ⟨.undefined, .str "u1", .num 10, .undefined⟩
        ⟨[], [], 1, none, none, none, none⟩ =
      (.err 400 "Campos obrigatórios ausentes." "", ⟨[], [], 1, none, none, none, none⟩) ∧
    postHistTransacoes ⟨2024, 5, 1, 12, 0, 0⟩ ⟨.str "u1", .str "", .num 10, .undefined⟩
        ⟨[], [], 1, none, none, none, none⟩ =
      (.err 400 "Campos obrigatórios ausentes." "", ⟨[], [], 1, none, none, none, none⟩) :=
  write_validation_rejects_falsy ⟨2024, 5, 1, 12, 0, 0⟩ _ _ _
    (Or.inl (by decide)) (Or.inr (Or.inl (by decide)))

/-- C5: a write request whose points value is exactly 0 is rejected with
the same validation error as a request with the field absent, leaving the
store untouched: the falsy check cannot tell zero from missing. -/
theorem zero_points_rejected_as_missing (now : DateTime) (idv uidv descv dv : JSVal)
    (db : DB) :
    postHistPontos now ⟨idv, uidv, .num 0, dv⟩ db =
        (.err 400 "Campos obrigatórios ausentes." "", db) ∧
    postHistPontos now ⟨idv, uidv, .num 0, dv⟩ db =
        postHistPontos now ⟨idv, uidv, .undefined, dv⟩ db ∧
    postHistTransacoes now ⟨uidv, descv, .num 0, dv⟩ db =
        (.err 400 "Campos obrigatórios ausentes." "", db) ∧
    postHistTransacoes now ⟨uidv, descv, .num 0, dv⟩ db =
        postHistTransacoes now ⟨uidv, descv, .undefined, dv⟩ db := by
  have h0 : (JSVal.num 0).falsy = true := by decide
  have hu : JSVal.undefined.falsy = true := rfl
  refine ⟨?_, ?_, ?_, ?_⟩ <;> simp [postHistPontos, postHistTransacoes, h0, hu]

/-- C6: the date window of a history query resolves by extending a present
start to the start of its day and a present end to the end of its day, and
by defaulting an absent bound to the epoch floor or the year-2999 ceiling;
with both bounds omitted every stored record of the scope (any well-formed
timestamp from 1970 through 2999) is part of the query result. -/
theorem date_window_resolution (s e : String) (db : DB) (r : PointRow) (t : TransRow)
    (hr : r ∈ db.histPoints) (ht : t ∈ db.histTransactions)
    (hrv : r.date.valid = true) (hry : 1970 ≤ r.date.year) (hry2 : r.date.year ≤ 2999)
    (htv : t.date.valid = true) (hty : 1970 ≤ t.date.year) (hty2 : t.date.year ≤ 2999) :
    startDateTimeOf none = "1970-01-01 00:00:00" ∧
    startDateTimeOf (some s) = s ++ " 00:00:00" ∧
    endDateTimeOf none = "2999-12-31 23:59:59" ∧
    endDateTimeOf (some e) = e ++ " 23:59:59" ∧
    normalizeEntry (projPoint r) ∈ histUserFlat db r.idUser none none ∧
    normalizeEntry (projPoint r) ∈ histAllFlat db none none ∧
    normalizeEntry (projTrans t) ∈ histAllFlat db none none := by
  refine ⟨rfl, rfl, rfl, rfl, ?_, ?_, ?_⟩
  · rw [histUserFlat, mergedSorted]
    apply mem_sortJS.mpr
    apply List.mem_map_of_mem
    apply List.mem_append_left
    rw [pointsRawUser]
    apply List.mem_map_of_mem
    rw [List.mem_filter]
    exact ⟨hr, by simp [betweenWindow_default r.date hrv hry hry2]⟩
  · rw [histAllFlat, mergedSorted]
    apply mem_sortJS.mpr
    apply List.mem_map_of_mem
    apply List.mem_append_left
    rw [pointsRawAll]
    apply List.mem_map_of_mem
    rw [List.mem_filter]
    exact ⟨hr, betweenWindow_default r.date hrv hry hry2⟩
  · rw [histAllFlat, mergedSorted]
    apply mem_sortJS.mpr
    apply List.mem_map_of_mem
    apply List.mem_append_right
    rw [transRawAll]
    apply List.mem_map_of_mem
    rw [List.mem_filter]
    exact ⟨ht, betweenWindow_default t.date htv hty hty2⟩

/-- Witness for C6: with no date filters, a 2024 point event and a 2023
transaction both appear in the default-window query results. -/
theorem date_window_resolution_witness :
    startDateTimeOf none = "1970-01-01 00:00:00" ∧
    startDateTimeOf (some "2024-05-01") = "2024-05-01" ++ " 00:00:00" ∧
    endDateTimeOf none = "2999-12-31 23:59:59" ∧
    endDateTimeOf (some "2024-05-31") = "2024-05-31" ++ " 23:59:59" ∧
    normalizeEntry (projPoint ⟨"p1", "u1", 10, ⟨2024, 5, 1, 12, 0, 0⟩⟩) ∈
      histUserFlat
        ⟨[⟨"p1", "u1", 10, ⟨2024, 5, 1, 12, 0, 0⟩⟩],
         [⟨1, "u2", "Voucher", 5, ⟨2023, 4, 2, 8, 30, 0⟩⟩], 2, none, none, none, none⟩
        "u1" none none ∧
    normalizeEntry (projPoint ⟨"p1", "u1", 10, ⟨2024, 5, 1, 12, 0, 0⟩⟩) ∈
      histAllFlat
        ⟨[⟨"p1", "u1", 10, ⟨2024, 5, 1, 12, 0, 0⟩⟩],
         [⟨1, "u2", "Voucher", 5, ⟨2023, 4, 2, 8, 30, 0⟩⟩], 2, none, none, none, none⟩
        none none ∧
    normalizeEntry (projTrans ⟨1, "u2", "Voucher", 5, ⟨2023, 4, 2, 8, 30, 0⟩⟩) ∈
      histAllFlat
        ⟨[⟨"p1", "u1", 10, ⟨2024, 5, 1, 12, 0, 0⟩⟩],
         [⟨1, "u2", "Voucher", 5, ⟨2023, 4, 2, 8, 30, 0⟩⟩], 2, none, none, none, none⟩
        none none :=
  date_window_resolution "2024-05-01" "2024-05-31" _ _ _
    (by decide) (by decide) (by decide) (by decide) (by decide)
    (by decide) (by decide) (by decide)

/-- C8: a history query produces a success payload exactly when both store
queries succeed; if the points query or the transactions query fails, the
whole call answers 500 with the store error detail and no partial merged
result exists, on both the single-user and the all-users route. -/
theorem store_failure_no_partial_result (db : DB) (uid : String) (s? e? : Option String) :
    ((∃ l, getHistUser db uid s? e? = .ok 200 l) ↔
      db.failQueryPoints = none ∧ db.failQueryTransactions = none) ∧
    (∀ m, db.failQueryPoints = some m →
      getHistUser db uid s? e? = .err 500 "Erro ao buscar histórico." m) ∧
    (∀ m, db.failQueryPoints = none → db.failQueryTransactions = some m →
      getHistUser db uid s? e? = .err 500 "Erro ao buscar histórico." m) ∧
    ((∃ g, getHistAll db s? e? = .ok 200 g) ↔
      db.failQueryPoints = none ∧ db.failQueryTransactions = none) ∧
    (∀ m, db.failQueryPoints = some m →
      getHistAll db s? e? = .err 500 "Erro ao buscar histórico." m) ∧
    (∀ m, db.failQueryPoints = none → db.failQueryTransactions = some m →
      getHistAll db s? e? = .err 500 "Erro ao buscar histórico." m) := by
  rcases hfp : db.failQueryPoints with _ | m1 <;>
    rcases hft : db.failQueryTransactions with _ | m2 <;>
      simp [getHistUser, getHistAll, hfp, hft]

/-- Witness for C8: on a store whose transactions query fails, the
single-user route answers 500 with the driver detail. -/
theorem store_failure_no_partial_result_witness :
    getHistUser ⟨[], [], 1, none, none, none, some "connection lost"⟩ "u1" none none =
      .err 500 "Erro ao buscar histórico." "connection lost" :=
  (store_failure_no_partial_result
      ⟨[], [], 1, none, none, none, some "connection lost"⟩ "u1" none none).2.2.1
    "connection lost" rfl rfl

/-- C2: when no user id is supplied, the grouped response holds each
merged entry under its own idUser key exactly once: the bucket of every
user u is exactly the subsequence of the globally sorted flat history
whose entries carry idUser u, in the same order; when a user id is
supplied, the response is the flat sorted sequence itself, not a
grouping. -/
theorem hist_grouping_buckets_eq_filter (db : DB) (uid u : String)
    (s? e? : Option String) (g : List (String × List DispEntry)) (l : List DispEntry)
    (hg : getHistAll db s? e? = .ok 200 g)
    (hl : getHistUser db uid s? e? = .ok 200 l) :
    bucketOf g u = (histAllFlat db s? e?).filter (fun x => x.idUser == u) ∧
    l = histUserFlat db uid s? e? := by
  rcases hfp : db.failQueryPoints with _ | m1 <;>
    rcases hft : db.failQueryTransactions with _ | m2 <;>
      simp [getHistAll, getHistUser, hfp, hft] at hg hl
  subst hg hl
  exact ⟨bucketOf_groupByUser _ u, rfl⟩

/-- Witness for C2: on a two-user store, the bucket of user u1 in the
grouped response equals the u1 subsequence of the flat sorted history, and
the single-user response is the flat history itself. -/
theorem hist_grouping_buckets_eq_filter_witness :
    bucketOf
        (groupByUser (histAllFlat
          ⟨[⟨"p1", "u1", 10, ⟨2024, 5, 1, 12, 0, 0⟩⟩, ⟨"p2", "u2", 4, ⟨2024, 5, 2, 9, 0, 0⟩⟩],
           [⟨1, "u1", "Voucher", 5, ⟨2024, 5, 3, 8, 0, 0⟩⟩], 2, none, none, none, none⟩
          none none)) "u1" =
      (histAllFlat
          ⟨[⟨"p1", "u1", 10, ⟨2024, 5, 1, 12, 0, 0⟩⟩, ⟨"p2", "u2", 4, ⟨2024, 5, 2, 9, 0, 0⟩⟩],
           [⟨1, "u1", "Voucher", 5, ⟨2024, 5, 3, 8, 0, 0⟩⟩], 2, none, none, none, none⟩
          none none).filter (fun x => x.idUser == "u1") ∧
    histUserFlat
        ⟨[⟨"p1", "u1", 10, ⟨2024, 5, 1, 12, 0, 0⟩⟩, ⟨"p2", "u2", 4, ⟨2024, 5, 2, 9, 0, 0⟩⟩],
         [⟨1, "u1", "Voucher", 5, ⟨2024, 5, 3, 8, 0, 0⟩⟩], 2, none, none, none, none⟩
        "u1" none none =
      histUserFlat
        ⟨[⟨"p1", "u1", 10, ⟨2024, 5, 1, 12, 0, 0⟩⟩, ⟨"p2", "u2", 4, ⟨2024, 5, 2, 9, 0, 0⟩⟩],
         [⟨1, "u1", "Voucher", 5, ⟨2024, 5, 3, 8, 0, 0⟩⟩], 2, none, none, none, none⟩
        "u1" none none :=
  hist_grouping_buckets_eq_filter _ "u1" "u1" none none _ _ rfl rfl

/-- C3: for either scope, once the resolved window bounds parse as
datetimes, the query result is a permutation of the display-normalized
union of exactly the point rows and transaction rows whose stored
timestamp lies inside the closed window, boundaries included: no
duplication, no omission. -/
theorem hist_merge_completeness (db : DB) (uid : String) (s? e? : Option String)
    (ws we : DateTime)
    (hws : mysqlParseDateTime (startDateTimeOf s?) = some ws)
    (hwe : mysqlParseDateTime (endDateTimeOf e?) = some we) :
    (histUserFlat db uid s? e?).Perm
      ((db.histPoints.filter fun r => r.idUser == uid &&
          (decide (ws.key ≤ r.date.key) && decide (r.date.key ≤ we.key))).map
        (fun r => normalizeEntry (projPoint r)) ++
       (db.histTransactions.filter fun r => r.idUser == uid &&
          (decide (ws.key ≤ r.date.key) && decide (r.date.key ≤ we.key))).map
        (fun r => normalizeEntry (projTrans r))) ∧
    (histAllFlat db s? e?).Perm
      ((db.histPoints.filter fun r =>
          decide (ws.key ≤ r.date.key) && decide (r.date.key ≤ we.key)).map
        (fun r => normalizeEntry (projPoint r)) ++
       (db.histTransactions.filter fun r =>
          decide (ws.key ≤ r.date.key) && decide (r.date.key ≤ we.key)).map
        (fun r => normalizeEntry (projTrans r))) := by
  constructor
  · rw [histUserFlat, mergedSorted, pointsRawUser, transRawUser, hws, hwe]
    refine (perm_sortJS _ _).trans ?_
    simp only [List.map_append, List.map_map, betweenWindow, Function.comp]
    exact List.Perm.refl _
  · rw [histAllFlat, mergedSorted, pointsRawAll, transRawAll, hws, hwe]
    refine (perm_sortJS _ _).trans ?_
    simp only [List.map_append, List.map_map, betweenWindow, Function.comp]
    exact List.Perm.refl _

/-- Witness for C3: with the default window on a one-point, one-transaction
store, the single-user result is a permutation of the two normalized
in-window rows. -/
theorem hist_merge_completeness_witness :
    (histUserFlat
        ⟨[⟨"p1", "u1", 10, ⟨2024, 5, 1, 12, 0, 0⟩⟩],
         [⟨1, "u1", "Voucher", 5, ⟨2024, 5, 3, 8, 0, 0⟩⟩], 2, none, none, none, none⟩
        "u1" none none).Perm
      ((([⟨"p1", "u1", 10, ⟨2024, 5, 1, 12, 0, 0⟩⟩] : List PointRow).filter
          (fun r => r.idUser == "u1" &&
            (decide ((DateTime.mk 1970 1 1 0 0 0).key ≤ r.date.key) &&
             decide (r.date.key ≤ (DateTime.mk 2999 12 31 23 59 59).key)))).map
        (fun r => normalizeEntry (projPoint r)) ++
       (([⟨1, "u1", "Voucher", 5, ⟨2024, 5, 3, 8, 0, 0⟩⟩] : List TransRow).filter
          (fun r => r.idUser == "u1" &&
            (decide ((DateTime.mk 1970 1 1 0 0 0).key ≤ r.date.key) &&
             decide (r.date.key ≤ (DateTime.mk 2999 12 31 23 59 59).key)))).map
        (fun r => normalizeEntry (projTrans r))) :=
  (hist_merge_completeness
      ⟨[⟨"p1", "u1", 10, ⟨2024, 5, 1, 12, 0, 0⟩⟩],
       [⟨1, "u1", "Voucher", 5, ⟨2024, 5, 3, 8, 0, 0⟩⟩], 2, none, none, none, none⟩
      "u1" none none ⟨1970, 1, 1, 0, 0, 0⟩ ⟨2999, 12, 31, 23, 59, 59⟩
      (by decide) (by decide)).1

theorem exists_raw_of_mem_mergedSorted {pts txs : List RawEntry} {x : DispEntry}
    (hx : x ∈ mergedSorted pts txs) :
    ∃ r ∈ pts ++ txs, x = normalizeEntry r := by
  rw [mergedSorted] at hx
  rcases List.mem_map.mp (mem_sortJS.mp hx) with ⟨r, hr, hxr⟩
  exact ⟨r, hr, hxr.symm⟩

theorem raw_shape {A : List PointRow} {B : List TransRow} {r : RawEntry}
    (h : r ∈ A.map projPoint ++ B.map projTrans) :
    (r.tipo = "ponto" ∧ r.description = none) ∨
    (r.tipo = "transacao" ∧ r.description.isSome = true) := by
  rcases List.mem_append.mp h with h | h
  · rcases List.mem_map.mp h with ⟨row, _, hrw⟩
    subst hrw
    exact Or.inl ⟨rfl, rfl⟩
  · rcases List.mem_map.mp h with ⟨row, _, hrw⟩
    subst hrw
    exact Or.inr ⟨rfl, rfl⟩

/-- C9: every entry returned by either route carries the kind tag of its
originating table, `ponto` or `transacao`, and the description field is
populated exactly on transaction-kind entries, never on point-kind
entries. -/
theorem entry_kind_discriminator (db : DB) (uid u : String) (s? e? : Option String)
    (x : DispEntry) (l : List DispEntry) (g : List (String × List DispEntry)) :
    (getHistUser db uid s? e? = .ok 200 l → x ∈ l →
      (x.tipo = "ponto" ∧ x.description = none) ∨
      (x.tipo = "transacao" ∧ x.description.isSome = true)) ∧
    (getHistAll db s? e? = .ok 200 g → x ∈ bucketOf g u →
      (x.tipo = "ponto" ∧ x.description = none) ∨
      (x.tipo = "transacao" ∧ x.description.isSome = true)) := by
  constructor
  · intro hl hx
    rcases hfp : db.failQueryPoints with _ | m1 <;>
      rcases hft : db.failQueryTransactions with _ | m2 <;>
        simp [getHistUser, hfp, hft] at hl
    subst hl
    rcases exists_raw_of_mem_mergedSorted hx with ⟨r, hr, hxr⟩
    subst hxr
    rw [pointsRawUser, transRawUser] at hr
    exact raw_shape hr
  · intro hg hx
    rcases hfp : db.failQueryPoints with _ | m1 <;>
      rcases hft : db.failQueryTransactions with _ | m2 <;>
        simp [getHistAll, hfp, hft] at hg
    subst hg
    rw [bucketOf_groupByUser] at hx
    rcases exists_raw_of_mem_mergedSorted (List.mem_filter.mp hx).1 with ⟨r, hr, hxr⟩
    subst hxr
    rw [pointsRawAll, transRawAll] at hr
    exact raw_shape hr

/-- Witness for C9: on a mixed store, the first entry of the single-user
result is kind-tagged and has a description exactly when it is a
transaction. -/
theorem entry_kind_discriminator_witness :
    (⟨.n 1, "u1", 5, some "Voucher", "03/05/2024, 08:00:00", "transacao"⟩ :
        DispEntry).tipo = "ponto" ∧
      (⟨.n 1, "u1", 5, some "Voucher", "03/05/2024, 08:00:00", "transacao"⟩ :
        DispEntry).description = none ∨
    (⟨.n 1, "u1", 5, some "Voucher", "03/05/2024, 08:00:00", "transacao"⟩ :
        DispEntry).tipo = "transacao" ∧
      ((⟨.n 1, "u1", 5, some "Voucher", "03/05/2024, 08:00:00", "transacao"⟩ :
        DispEntry).description).isSome = true :=
  (entry_kind_discriminator
      ⟨[⟨"p1", "u1", 10, ⟨2024, 5, 1, 12, 0, 0⟩⟩],
       [⟨1, "u1", "Voucher", 5, ⟨2024, 5, 3, 8, 0, 0⟩⟩], 2, none, none, none, none⟩
      "u1" "u1" none none
      ⟨.n 1, "u1", 5, some "Voucher", "03/05/2024, 08:00:00", "transacao"⟩
      (histUserFlat
        ⟨[⟨"p1", "u1", 10, ⟨2024, 5, 1, 12, 0, 0⟩⟩],
         [⟨1, "u1", "Voucher", 5, ⟨2024, 5, 3, 8, 0, 0⟩⟩], 2, none, none, none, none⟩
        "u1" none none) []).1 rfl (by decide)

/-- C10: the display rewrite changes only the date field: every entry
returned by either route agrees with some row of the SELECT result sets on
id, idUser, points, description and tipo, and its date is exactly the
pt-BR rendering of that row's stored timestamp. -/
theorem normalization_rewrites_only_date (db : DB) (uid u : String)
    (s? e? : Option String) (x : DispEntry) (l : List DispEntry)
    (g : List (String × List DispEntry)) :
    (getHistUser db uid s? e? = .ok 200 l → x ∈ l →
      ∃ r ∈ pointsRawUser db uid (mysqlParseDateTime (startDateTimeOf s?))
            (mysqlParseDateTime (endDateTimeOf e?)) ++
          transRawUser db uid (mysqlParseDateTime (startDateTimeOf s?))
            (mysqlParseDateTime (endDateTimeOf e?)),
        x.id = r.id ∧ x.idUser = r.idUser ∧ x.points = r.points ∧
        x.description = r.description ∧ x.tipo = r.tipo ∧
        x.date = formatDateToBrazil r.date) ∧
    (getHistAll db s? e? = .ok 200 g → x ∈ bucketOf g u →
      ∃ r ∈ pointsRawAll db (mysqlParseDateTime (startDateTimeOf s?))
            (mysqlParseDateTime (endDateTimeOf e?)) ++
          transRawAll db (mysqlParseDateTime (startDateTimeOf s?))
            (mysqlParseDateTime (endDateTimeOf e?)),
        x.id = r.id ∧ x.idUser = r.idUser ∧ x.points = r.points ∧
        x.description = r.description ∧ x.tipo = r.tipo ∧
        x.date = formatDateToBrazil r.date) := by
  constructor
  · intro hl hx
    rcases hfp : db.failQueryPoints with _ | m1 <;>
      rcases hft : db.failQueryTransactions with _ | m2 <;>
        simp [getHistUser, hfp, hft] at hl
    subst hl
    rcases exists_raw_of_mem_mergedSorted hx with ⟨r, hr, hxr⟩
    subst hxr
    exact ⟨r, hr, rfl, rfl, rfl, rfl, rfl, rfl⟩
  · intro hg hx
    rcases hfp : db.failQueryPoints with _ | m1 <;>
      rcases hft : db.failQueryTransactions with _ | m2 <;>
        simp [getHistAll, hfp, hft] at hg
    subst hg
    rw [bucketOf_groupByUser] at hx
    rcases exists_raw_of_mem_mergedSorted (List.mem_filter.mp hx).1 with ⟨r, hr, hxr⟩
    subst hxr
    exact ⟨r, hr, rfl, rfl, rfl, rfl, rfl, rfl⟩

/-- Witness for C10: on a one-transaction store, the returned entry agrees
with a SELECT row on everything but the rewritten date. -/
theorem normalization_rewrites_only_date_witness :
    ∃ r ∈ pointsRawUser
          ⟨[], [⟨1, "u1", "Voucher", 5, ⟨2024, 5, 3, 8, 0, 0⟩⟩], 2, none, none, none, none⟩
          "u1" (mysqlParseDateTime (startDateTimeOf none))
          (mysqlParseDateTime (endDateTimeOf none)) ++
        transRawUser
          ⟨[], [⟨1, "u1", "Voucher", 5, ⟨2024, 5, 3, 8, 0, 0⟩⟩], 2, none, none, none, none⟩
          "u1" (mysqlParseDateTime (startDateTimeOf none))
          (mysqlParseDateTime (endDateTimeOf none)),
      (⟨.n 1, "u1", 5, some "Voucher", "03/05/2024, 08:00:00", "transacao"⟩ :
          DispEntry).id = r.id ∧
      (⟨.n 1, "u1", 5, some "Voucher", "03/05/2024, 08:00:00", "transacao"⟩ :
          DispEntry).idUser = r.idUser ∧
      (⟨.n 1, "u1", 5, some "Voucher", "03/05/2024, 08:00:00", "transacao"⟩ :
          DispEntry).points = r.points ∧
      (⟨.n 1, "u1", 5, some "Voucher", "03/05/2024, 08:00:00", "transacao"⟩ :
          DispEntry).description = r.description ∧
      (⟨.n 1, "u1", 5, some "Voucher", "03/05/2024, 08:00:00", "transacao"⟩ :
          DispEntry).tipo = r.tipo ∧
      (⟨.n 1, "u1", 5, some "Voucher", "03/05/2024, 08:00:00", "transacao"⟩ :
          DispEntry).date = formatDateToBrazil r.date :=
  (normalization_rewrites_only_date
      ⟨[], [⟨1, "u1", "Voucher", 5, ⟨2024, 5, 3, 8, 0, 0⟩⟩], 2, none, none, none, none⟩
      "u1" "u1" none none
      ⟨.n 1, "u1", 5, some "Voucher", "03/05/2024, 08:00:00", "transacao"⟩
      (histUserFlat
        ⟨[], [⟨1, "u1", "Voucher", 5, ⟨2024, 5, 3, 8, 0, 0⟩⟩], 2, none, none, none, none⟩
        "u1" none none) []).1 rfl (by decide)

/-- C7: on every successful write the stored occurredAt is produced by the
recorder itself from the current wall clock of the designated timezone,
rendered as `YYYY-MM-DDTHH:MM:SS` (seconds precision, no fraction, no
offset), round-trips through the store parse to exactly that wall-clock
value, and any timestamp field supplied by the caller is ignored. -/
theorem occurredAt_recorder_generated (now : DateTime) (pb : PontosBody)
    (tb : TransacoesBody) (db : DB) (dv : JSVal)
    (hv : now.valid = true)
    (hp1 : pb.id.falsy = false) (hp2 : pb.idUser.falsy = false)
    (hp3 : pb.points.falsy = false)
    (ht1 : tb.idUser.falsy = false) (ht2 : tb.description.falsy = false)
    (ht3 : tb.points.falsy = false)
    (hip : db.failInsertPoints = none) (hit : db.failInsertTransactions = none) :
    (getBrazilDateTime now).data =
      pad4C now.year ++ '-' :: (pad2C now.month ++ '-' :: (pad2C now.day ++
        'T' :: (pad2C now.hour ++ ':' :: (pad2C now.minute ++ ':' :: pad2C now.second)))) ∧
    mysqlParseDateTime (getBrazilDateTime now) = some now ∧
    postHistPontos now pb db =
      (.ok 201 "Histórico de pontos registrado com sucesso.",
       { db with histPoints := db.histPoints ++
           [⟨jsAsString pb.id, jsAsString pb.idUser, jsAsInt pb.points, now⟩] }) ∧
    postHistTransacoes now tb db =
      (.ok 201 "Histórico de transação registrado com sucesso.",
       { db with
           histTransactions := db.histTransactions ++
             [⟨db.nextTransId, jsAsString tb.idUser, jsAsString tb.description,
               jsAsInt tb.points, now⟩],
           nextTransId := db.nextTransId + 1 }) ∧
    postHistPontos now { pb with date := dv } db = postHistPontos now pb db ∧
    postHistTransacoes now { tb with date := dv } db = postHistTransacoes now tb db := by
  have hrt := mysqlParse_getBrazil now hv
  refine ⟨?_, hrt, ?_, ?_, rfl, rfl⟩
  · rw [getBrazilDateTime_chars]
    simp [datePartC, timePartC]
  · simp [postHistPontos, hp1, hp2, hp3, hip, hrt]
  · simp [postHistTransacoes, ht1, ht2, ht3, hit, hrt]

/-- Witness for C7: a concrete successful write stores exactly the
recorder-generated wall-clock timestamp and its wire form parses back to
it. -/
theorem occurredAt_recorder_generated_witness :
    mysqlParseDateTime (getBrazilDateTime ⟨2026, 10, 11, 15, 30, 0⟩) =
      some ⟨2026, 10, 11, 15, 30, 0⟩ ∧
    postHistPontos ⟨2026, 10, 11, 15, 30, 0⟩ ⟨.str "p1", .str "u1", .num 10, .null⟩
        ⟨[], [], 1, none, none, none, none⟩ =
      (.ok 201 "Histórico de pontos registrado com sucesso.",
       { histPoints := [⟨"p1", "u1", 10, ⟨2026, 10, 11, 15, 30, 0⟩⟩],
         histTransactions := [], nextTransId := 1,
         failInsertPoints := none, failInsertTransactions := none,
         failQueryPoints := none, failQueryTransactions := none }) :=
  ⟨(occurredAt_recorder_generated ⟨2026, 10, 11, 15, 30, 0⟩
      ⟨.str "p1", .str "u1", .num 10, .null⟩ ⟨.str "u1", .str "Voucher", .num 5, .null⟩
      ⟨[], [], 1, none, none, none, none⟩ .undefined
      (by decide) (by decide) (by decide) (by decide)
      (by decide) (by decide) (by decide) rfl rfl).2.1,
   (occurredAt_recorder_generated ⟨2026, 10, 11, 15, 30, 0⟩
      ⟨.str "p1", .str "u1", .num 10, .null⟩ ⟨.str "u1", .str "Voucher", .num 5, .null⟩
      ⟨[], [], 1, none, none, none, none⟩ .undefined
      (by decide) (by decide) (by decide) (by decide)
      (by decide) (by decide) (by decide) rfl rfl).2.2.1⟩

theorem sortedByParsedDisplay_sortJS (l : List DispEntry)
    (hl : ∀ x ∈ l, (jsParseDate x.date).isSome = true) :
    sortedByParsedDisplay (sortJS entryLe l) := by
  have htrans : ∀ a b c : DispEntry,
      (jsParseDate a.date).isSome = true → (jsParseDate b.date).isSome = true →
      (jsParseDate c.date).isSome = true →
      entryLe a b = true → entryLe b c = true → entryLe a c = true := by
    intro a b c ha hb hc h1 h2
    rcases Option.isSome_iff_exists.mp ha with ⟨ka, hka⟩
    rcases Option.isSome_iff_exists.mp hb with ⟨kb, hkb⟩
    rcases Option.isSome_iff_exists.mp hc with ⟨kc, hkc⟩
    simp only [entryLe, compareEntries, hka, hkb, decide_eq_true_eq] at h1
    simp only [entryLe, compareEntries, hkb, hkc, decide_eq_true_eq] at h2
    simp only [entryLe, compareEntries, hka, hkc, decide_eq_true_eq]
    omega
  have htotal : ∀ a b : DispEntry,
      (jsParseDate a.date).isSome = true → (jsParseDate b.date).isSome = true →
      entryLe a b = true ∨ entryLe b a = true := by
    intro a b ha hb
    rcases Option.isSome_iff_exists.mp ha with ⟨ka, hka⟩
    rcases Option.isSome_iff_exists.mp hb with ⟨kb, hkb⟩
    simp only [entryLe, compareEntries, hka, hkb, decide_eq_true_eq]
    omega
  have hpair := @pairwise_sortJS DispEntry entryLe
    (fun x : DispEntry => (jsParseDate x.date).isSome = true) htrans htotal l hl
  rw [sortedByParsedDisplay]
  refine hpair.imp_of_mem ?_
  intro a b ha hb hab
  rcases Option.isSome_iff_exists.mp (hl a (mem_sortJS.mp ha)) with ⟨ka, hka⟩
  rcases Option.isSome_iff_exists.mp (hl b (mem_sortJS.mp hb)) with ⟨kb, hkb⟩
  simp only [entryLe, compareEntries, hka, hkb, decide_eq_true_eq] at hab
  simp only [jsGeOpt, hka, hkb, decide_eq_true_eq]
  omega

/-- C1 counterexample: on a store holding a point event of 2024-12-25 and
a newer transaction of 2024-12-26 (both display day-of-month fields exceed
12, so neither display string re-parses under the month-first reading),
the single-user query returns the entries in concatenation order, oldest
first, and the claimed all-pairs descending-by-reparsed-display property
is false for the returned sequence. -/
theorem hist_query_unsorted_counterexample :
    getHistUser
        ⟨[⟨"p1", "u1", 10, ⟨2024, 12, 25, 10, 0, 0⟩⟩],
         [⟨1, "u1", "Voucher", 5, ⟨2024, 12, 26, 10, 0, 0⟩⟩],
         2, none, none, none, none⟩ "u1" none none =
      .ok 200
        [⟨.s "p1", "u1", 10, none, "25/12/2024, 10:00:00", "ponto"⟩,
         ⟨.n 1, "u1", 5, some "Voucher", "26/12/2024, 10:00:00", "transacao"⟩] ∧
    ¬ sortedByParsedDisplay
        [⟨.s "p1", "u1", 10, none, "25/12/2024, 10:00:00", "ponto"⟩,
         ⟨.n 1, "u1", 5, some "Voucher", "26/12/2024, 10:00:00", "transacao"⟩] := by
  constructor
  · decide
  · intro h
    have h1 := (List.pairwise_cons.mp h).1
      ⟨.n 1, "u1", 5, some "Voucher", "26/12/2024, 10:00:00", "transacao"⟩ (by simp)
    exact absurd h1 (by decide)

/-- C1 amended: when every returned entry's display string re-parses as a
valid timestamp under the runtime month-first reading (in particular
whenever every display day-of-month is at most 12), the returned sequence
of either history query is pairwise descending by re-parsed display
timestamp; an entry whose display string does not re-parse compares equal
to everything during sorting, so no ordering is guaranteed for sequences
containing one. -/
theorem hist_sorted_when_all_display_parse (db : DB) (uid : String)
    (s? e? : Option String)
    (hu : ∀ x ∈ histUserFlat db uid s? e?, (jsParseDate x.date).isSome = true)
    (ha : ∀ x ∈ histAllFlat db s? e?, (jsParseDate x.date).isSome = true) :
    sortedByParsedDisplay (histUserFlat db uid s? e?) ∧
    sortedByParsedDisplay (histAllFlat db s? e?) := by
  constructor
  · rw [histUserFlat, mergedSorted] at hu ⊢
    exact sortedByParsedDisplay_sortJS _ fun x hx => hu x (mem_sortJS.mpr hx)
  · rw [histAllFlat, mergedSorted] at ha ⊢
    exact sortedByParsedDisplay_sortJS _ fun x hx => ha x (mem_sortJS.mpr hx)

/-- Witness for the amended C1: on a store whose records fall on early
days of the month (display day-of-month at most 12), both query results
satisfy the descending property. -/
theorem hist_sorted_when_all_display_parse_witness :
    sortedByParsedDisplay
      (histUserFlat
        ⟨[⟨"p1", "u1", 10, ⟨2024, 3, 5, 10, 0, 0⟩⟩],
         [⟨1, "u1", "Voucher", 5, ⟨2024, 3, 6, 10, 0, 0⟩⟩],
         2, none, none, none, none⟩ "u1" none none) ∧
    sortedByParsedDisplay
      (histAllFlat
        ⟨[⟨"p1", "u1", 10, ⟨2024, 3, 5, 10, 0, 0⟩⟩],
         [⟨1, "u1", "Voucher", 5, ⟨2024, 3, 6, 10, 0, 0⟩⟩],
         2, none, none, none, none⟩ none none) :=
  hist_sorted_when_all_display_parse
    ⟨[⟨"p1", "u1", 10, ⟨2024, 3, 5, 10, 0, 0⟩⟩],
     [⟨1, "u1", "Voucher", 5, ⟨2024, 3, 6, 10, 0, 0⟩⟩],
     2, none, none, none, none⟩ "u1" none none (by decide) (by decide)
